import Mathlib

/-!
Verification model of `vimiv/transform.py` (class `Transform`).

The Python class keeps a dictionary `self._changes` mapping a file name to a
three element list `[rotation, flip_horizontal, flip_vertical]` of integers
(rotation reduced modulo 4, flips reduced modulo 2), together with one shared
boolean `self.threads_running`.  We embed the class state as an explicit
structure, the dictionary as an association list preserving insertion order
(Python dictionaries preserve insertion order, update in place, and append new
keys), and each method as a pure function from the state to a pair of a new
state and a trace of observable effects (status-bar messages, GObject signal
emissions, codec invocations, trash-manager calls, thread spawns).
-/

namespace Vimiv

/-- One value of the `_changes` dictionary: the Python list
`[rotation, flip_horizontal, flip_vertical]` of integers. -/
structure Entry where
  rotation : Nat
  flipH : Nat
  flipV : Nat
deriving Repr, DecidableEq

/-- The `_changes` dictionary: an insertion-ordered association list from file
name to entry. -/
abbrev ChangesMap := List (String × Entry)

/-- Membership-preserving lookup in the association list, mirroring Python
`self._changes[fil]` / `fil in self._changes`. -/
def lookupEntry : ChangesMap → String → Option Entry
  | [], _ => none
  | (q, e) :: rest, p => if q = p then some e else lookupEntry rest p

/-- In-place update of an existing key, mirroring Python item assignment on a
key that is present (position in the dictionary is kept). -/
def setEntry : ChangesMap → String → Entry → ChangesMap
  | [], p, e => [(p, e)]
  | (q, d) :: rest, p, e =>
      if q = p then (p, e) :: rest else (q, d) :: setEntry rest p e

/-- Observable effects of the `Transform` methods: status-bar messages, signal
emissions, codec-layer invocations (`imageactions`), trash-manager calls, the
autorotate engine start and the commit-worker thread spawn. -/
inductive Event where
  | statusbarMessage (text : String) (kind : String)
  | changedRotate (cwise : Nat)
  | changedFlip (horizontal : Int)
  | appliedToFile (paths : List String)
  | pathsChanged
  | codecRotate (path : String) (steps : Nat)
  | codecFlip (path : String) (horizontal : Bool)
  | trashDelete (path : String)
  | manipulateFinish
  | quitApp
  | workerSpawned
  | autorotateRun (paths : List String)
deriving Repr, DecidableEq

/-- The state of a `Transform` object together with the collaborator state it
reads: the `_changes` dictionary, the shared `threads_running` flag, the
externally owned marked set, the `autosave_images` setting, the thumbnail and
manipulate mode flags, `os.path.abspath(app.get_pos(True))` (`posPath`),
`app.get_path()` (`path`), `app.get_paths()` (`allPaths`),
`edit_supported(app.get_path())` (`editSupported`), and a snapshot of the file
system as a list of existing paths with an is-directory flag (`fs`). -/
structure TransformState where
  changes : ChangesMap
  threads_running : Bool
  marked : List String
  autosave : Bool
  thumbnailToggled : Bool
  manipulateVisible : Bool
  posPath : String
  path : String
  allPaths : List String
  editSupported : Bool
  fs : List (String × Bool)
deriving Repr, DecidableEq

/-- `os.path.exists` over the modelled file system. -/
def fsExists (st : TransformState) (p : String) : Bool :=
  (st.fs.lookup p).isSome

/-- `os.path.isdir` over the modelled file system. -/
def fsIsDir (st : TransformState) (p : String) : Bool :=
  st.fs.lookup p == some true

/-- `Transform.get_images`: the marked images when the marked set is non-empty
(with an informational count message), else the absolute path of the currently
shown image. -/
def get_images (st : TransformState) (info : String) : List String × List Event :=
  if st.marked.isEmpty then
    ([st.posPath], [])
  else
    let n := st.marked.length
    let message :=
      if n = 1 then info ++ " " ++ toString n ++ " marked image"
      else info ++ " " ++ toString n ++ " marked images"
    (st.marked, [Event.statusbarMessage message "info"])

/-- `Transform._is_transformable`: returns the `NotTransformable` message when
the current image cannot be transformed, `none` otherwise. -/
def is_transformable (st : TransformState) : Option String :=
  if st.allPaths.isEmpty then some "No image to"
  else if ¬ st.editSupported then some "Filetype not supported for"
  else if ¬ st.autosave then
    if st.thumbnailToggled then
      some "When operating in thumbnail mode \"autosave_images\" must be enabled for"
    else if ¬ st.marked.isEmpty then
      some "When images are marked \"autosave_images\" must be enabled for"
    else none
  else none

/-- The value of one decimal digit character, `none` for a non-digit. -/
def digitVal (c : Char) : Option Nat :=
  if c = '0' then some 0 else if c = '1' then some 1 else if c = '2' then some 2
  else if c = '3' then some 3 else if c = '4' then some 4 else if c = '5' then some 5
  else if c = '6' then some 6 else if c = '7' then some 7 else if c = '8' then some 8
  else if c = '9' then some 9 else none

/-- Accumulate a decimal number over a character list, `none` on the first
non-digit. -/
def parseDigitsAux : List Char → Nat → Option Nat
  | [], acc => some acc
  | c :: rest, acc =>
    match digitVal c with
    | some d => parseDigitsAux rest (acc * 10 + d)
    | none => none

/-- A non-empty all-digit character list as a number. -/
def parseDigits : List Char → Option Nat
  | [] => none
  | c :: rest => parseDigitsAux (c :: rest) 0

/-- Modelled from the spec: the integer syntax accepted by `get_int` of
`vimiv.helpers`, which is not among the sources — an optional leading minus
sign followed by a non-empty digit string; anything else is not numeric. -/
def str_to_int (s : String) : Option Int :=
  match s.data with
  | List.cons (Char.ofNat 45) rest => (parseDigits rest).map (fun n => -(n : Int))
  | l => (parseDigits l).map (fun n => (n : Int))

/-- Modelled from the spec: `get_int` from `vimiv.helpers` is not among the
sources; the spec says the argument is parsed as a signed integer and a
`StringConversionError` is raised when it is not numeric.  The `allowSign`
flag of the call sites is accepted; the spec describes no further behaviour
for it, so parsing is the same either way. -/
def get_int (value : String) (allowSign : Bool) : Except String Int :=
  match str_to_int value with
  | some n => Except.ok n
  | none => Except.error ("Could not convert " ++ value ++ " to int")

/-- The per-path merge of a rotation already reduced modulo 4, mirroring the
body of the `for fil in images` loop of `Transform.rotate`: add to an existing
entry modulo 4, or insert a fresh `[cwise, 0, 0]` entry. -/
def rotateUpdatePath (m : ChangesMap) (fil : String) (cw : Nat) : ChangesMap :=
  match lookupEntry m fil with
  | some e => setEntry m fil { e with rotation := (e.rotation + cw) % 4 }
  | none => m ++ [(fil, ⟨cw, 0, 0⟩)]

/-- The `_changes` merge of `Transform.rotate`: `cwise = cwise % 4`, then the
per-path loop over the selected images. -/
def rotateUpdate (m : ChangesMap) (images : List String) (cwise : Int) : ChangesMap :=
  let cw := (cwise % 4).toNat
  images.foldl (fun acc fil => rotateUpdatePath acc fil cw) m

/-- The per-path merge of the `for fil in images` loop of `Transform.flip`:
insert a zero entry when absent, then toggle the axis selected by the
truthiness of `horizontal`.  After the insertion step the key is always
present, so the `getD` default is never used; it only makes the read of
`self._changes[fil]` total. -/
def flipUpdatePath (m : ChangesMap) (fil : String) (horizontal : Int) : ChangesMap :=
  let m1 := if (lookupEntry m fil).isSome then m else m ++ [(fil, ⟨0, 0, 0⟩)]
  let e := (lookupEntry m1 fil).getD ⟨0, 0, 0⟩
  if horizontal ≠ 0 then setEntry m1 fil { e with flipH := (e.flipH + 1) % 2 }
  else setEntry m1 fil { e with flipV := (e.flipV + 1) % 2 }

/-- The `_changes` merge of `Transform.flip` over the selected images. -/
def flipUpdate (m : ChangesMap) (images : List String) (horizontal : Int) : ChangesMap :=
  images.foldl (fun acc fil => flipUpdatePath acc fil horizontal) m

/-- The key snapshot `to_remove = list(self._changes.keys())` taken by
`Transform._thread_for_apply` before it starts writing. -/
def workerSnapshot (m : ChangesMap) : List String :=
  m.map Prod.fst

/-- The final `for key in to_remove: del self._changes[key]` of
`Transform._thread_for_apply`: remove exactly the snapshotted keys, keeping
every other entry. -/
def workerRemove (m : ChangesMap) (snap : List String) : ChangesMap :=
  m.filter (fun pe => decide (pe.1 ∉ snap))

/-- The codec calls made for one entry by `Transform._thread_for_apply`:
rotation first, then horizontal flip, then vertical flip, each only when its
component is non-zero. -/
def entryCalls (f : String) (e : Entry) : List Event :=
  (if e.rotation ≠ 0 then [Event.codecRotate f e.rotation] else []) ++
  (if e.flipH ≠ 0 then [Event.codecFlip f true] else []) ++
  (if e.flipV ≠ 0 then [Event.codecFlip f false] else [])

/-- The codec calls of the whole `for f in self._changes` loop of
`Transform._thread_for_apply`, in dictionary order. -/
def allCalls : ChangesMap → List Event
  | [] => []
  | (f, e) :: rest => entryCalls f e ++ allCalls rest

/-- `Transform._thread_for_apply` run to completion: sets `threads_running`,
drives the codec over every staged entry, deletes exactly the snapshotted
keys, emits `applied-to-file` with the snapshot, and clears
`threads_running`. -/
def thread_for_apply (st : TransformState) : TransformState × List Event :=
  let to_remove := workerSnapshot st.changes
  ({ st with changes := workerRemove st.changes to_remove, threads_running := false },
   allCalls st.changes ++ [Event.appliedToFile to_remove])

/-- `Transform.apply`: drop the request when `threads_running` is set; spawn
the worker thread when `autosave_images` is enabled; otherwise discard the
whole `_changes` dictionary. -/
def apply (st : TransformState) : TransformState × List Event :=
  if st.threads_running then (st, [])
  else if st.autosave then (st, [Event.workerSpawned])
  else ({ st with changes := [] }, [])

/-- The body of `Transform.rotate` after validation and parsing: select the
images, reduce modulo 4, merge, emit `changed` when the shown image was
rotated, and trigger `apply` in thumbnail mode. -/
def rotateParsed (st : TransformState) (cwise : Int) : TransformState × List Event :=
  let gi := get_images st "Rotated"
  let cw := (cwise % 4).toNat
  let st1 := { st with changes := rotateUpdate st.changes gi.1 cwise }
  let ev1 := if st.path ∈ gi.1 then [Event.changedRotate cw] else []
  if st.thumbnailToggled then
    let ap := apply st1
    (ap.1, gi.2 ++ ev1 ++ ap.2)
  else (st1, gi.2 ++ ev1)

/-- `Transform.rotate`: validate, parse the argument with `get_int` allowing a
sign, and on failure surface the error without touching any state. -/
def rotate (st : TransformState) (arg : String) : TransformState × List Event :=
  match is_transformable st with
  | some e => (st, [Event.statusbarMessage (e ++ " rotate") "error"])
  | none =>
    match get_int arg true with
    | Except.error msg => (st, [Event.statusbarMessage msg "error"])
    | Except.ok cwise => rotateParsed st cwise

/-- The body of `Transform.flip` after validation and parsing. -/
def flipParsed (st : TransformState) (horizontal : Int) : TransformState × List Event :=
  let gi := get_images st "Flipped"
  let st1 := { st with changes := flipUpdate st.changes gi.1 horizontal }
  let ev1 := if st.path ∈ gi.1 then [Event.changedFlip horizontal] else []
  if st.thumbnailToggled then
    let ap := apply st1
    (ap.1, gi.2 ++ ev1 ++ ap.2)
  else (st1, gi.2 ++ ev1)

/-- `Transform.flip`: validate, parse the axis argument with `get_int` (no
sign allowed), and on failure surface the error without touching any state. -/
def flip (st : TransformState) (arg : String) : TransformState × List Event :=
  match is_transformable st with
  | some e => (st, [Event.statusbarMessage (e ++ " flip") "error"])
  | none =>
    match get_int arg false with
    | Except.error msg => (st, [Event.statusbarMessage msg "error"])
    | Except.ok h => flipParsed st h

/-- `Transform.write`: announce, then either hand the commit to the manipulate
subsystem and clear `_changes` locally, or run `_thread_for_apply` directly;
finally quit or announce completion. -/
def write (st : TransformState) (quit_app : Bool) : TransformState × List Event :=
  let ev0 := [Event.statusbarMessage "Saving..." "info"]
  let branch :=
    if st.manipulateVisible then
      ({ st with changes := [] }, [Event.manipulateFinish])
    else thread_for_apply st
  let ev2 :=
    if quit_app then [Event.quitApp]
    else [Event.statusbarMessage "Changes written to disk" "info"]
  (branch.1, ev0 ++ branch.2 ++ ev2)

/-- The commit step of `write` as the specification words it: "If an external
manipulate editing mode is currently active, delegates the full commit to that
subsystem and discards the Staged Transform Map locally ... Otherwise calls
`apply()`."  Kept beside the code-derived `write` for comparison. -/
def write_spec (st : TransformState) (quit_app : Bool) : TransformState × List Event :=
  let ev0 := [Event.statusbarMessage "Saving..." "info"]
  let branch :=
    if st.manipulateVisible then
      ({ st with changes := [] }, [Event.manipulateFinish])
    else apply st
  let ev2 :=
    if quit_app then [Event.quitApp]
    else [Event.statusbarMessage "Changes written to disk" "info"]
  (branch.1, ev0 ++ branch.2 ++ ev2)

/-- The error string `Transform.delete` accumulates for one image, empty for
an image that is trashed. -/
def deleteErrString (st : TransformState) (im : String) : String :=
  if ¬ fsExists st im then "Image " ++ im ++ " does not exist."
  else if fsIsDir st im then "Deleting directory " ++ im ++ " is not supported."
  else ""

/-- The `for im in images` loop of `Transform.delete`: accumulate the error
message left to right and call the trash manager on every remaining path. -/
def deleteRun (st : TransformState) : List String → String × List Event
  | [] => ("", [])
  | im :: rest =>
    let r := deleteRun st rest
    if ¬ fsExists st im then ("Image " ++ im ++ " does not exist." ++ r.1, r.2)
    else if fsIsDir st im then
      ("Deleting directory " ++ im ++ " is not supported." ++ r.1, r.2)
    else (r.1, Event.trashDelete im :: r.2)

/-- `Transform.delete`: resolve the images, clear the marked set, trash what
can be trashed, report the accumulated errors as one message, and emit
`paths-changed` unconditionally. -/
def delete (st : TransformState) : TransformState × List Event :=
  let gi := get_images st "Deleted"
  let st1 := { st with marked := [] }
  let run := deleteRun st gi.1
  let ev2 := if run.1 = "" then [] else [Event.statusbarMessage run.1 "error"]
  (st1, gi.2 ++ run.2 ++ ev2 ++ [Event.pathsChanged])

/-- `Transform.rotate_auto`: set the shared `threads_running` flag and start
the external autorotate engine on the full path list. -/
def rotate_auto (st : TransformState) : TransformState × List Event :=
  ({ st with threads_running := true }, [Event.autorotateRun st.allPaths])

/-- `Transform._on_autorotate_completed`: clear the shared `threads_running`
flag and report the count. -/
def on_autorotate_completed (st : TransformState) (amount : Nat) :
    TransformState × List Event :=
  ({ st with threads_running := false },
   [Event.statusbarMessage
      ("Completed autorotate, " ++ toString amount ++ " files rotated") "info"])

/-- Well-formedness of one entry: rotation reduced modulo 4, flips reduced
modulo 2, as the data-model invariant states. -/
def entryWF (e : Entry) : Prop :=
  e.rotation < 4 ∧ e.flipH < 2 ∧ e.flipV < 2

instance (e : Entry) : Decidable (entryWF e) := by
  unfold entryWF; infer_instance

/-- Well-formedness of the whole `_changes` dictionary. -/
def mapWF (m : ChangesMap) : Prop :=
  ∀ pe ∈ m, entryWF pe.2

instance (m : ChangesMap) : Decidable (mapWF m) := by
  unfold mapWF; infer_instance

/-- A convenient concrete state for witnesses: one shown image, nothing
staged, no worker running, autosave enabled. -/
def sampleState : TransformState where
  changes := []
  threads_running := false
  marked := []
  autosave := true
  thumbnailToggled := false
  manipulateVisible := false
  posPath := "/cur.jpg"
  path := "/cur.jpg"
  allPaths := ["/cur.jpg"]
  editSupported := true
  fs := [("/cur.jpg", false)]

/-! ### Helper lemmas about the association-list dictionary -/

theorem lookupEntry_setEntry_self (m : ChangesMap) (p : String) (e : Entry) :
    lookupEntry (setEntry m p e) p = some e := by
  induction m with
  | nil => simp [setEntry, lookupEntry]
  | cons hd tl ih =>
    by_cases h : hd.1 = p
    · simp [setEntry, h, lookupEntry]
    · simp [setEntry, h, lookupEntry, ih]

theorem lookupEntry_setEntry_ne (m : ChangesMap) (p q : String) (e : Entry)
    (h : p ≠ q) : lookupEntry (setEntry m p e) q = lookupEntry m q := by
  induction m with
  | nil => simp [setEntry, lookupEntry, h]
  | cons hd tl ih =>
    by_cases h1 : hd.1 = p
    · simp [setEntry, h1, lookupEntry, h]
    · simp [setEntry, h1, lookupEntry, ih]

theorem lookupEntry_append_single_self (m : ChangesMap) (p : String) (e : Entry)
    (h : lookupEntry m p = none) : lookupEntry (m ++ [(p, e)]) p = some e := by
  induction m with
  | nil => simp [lookupEntry]
  | cons hd tl ih =>
    by_cases h1 : hd.1 = p
    · simp [lookupEntry, h1] at h
    · simp [lookupEntry, h1] at h ⊢
      exact ih h

theorem lookupEntry_append_single_ne (m : ChangesMap) (p q : String) (e : Entry)
    (h : p ≠ q) : lookupEntry (m ++ [(p, e)]) q = lookupEntry m q := by
  induction m with
  | nil => simp [lookupEntry, h]
  | cons hd tl ih =>
    by_cases h1 : hd.1 = q
    · simp [lookupEntry, h1]
    · simp [lookupEntry, h1, ih]

theorem lookupEntry_workerRemove_of_notMem (m : ChangesMap) (snap : List String)
    (p : String) (h : p ∉ snap) :
    lookupEntry (workerRemove m snap) p = lookupEntry m p := by
  induction m with
  | nil => rfl
  | cons hd tl ih =>
    by_cases h1 : hd.1 ∈ snap
    · have h2 : hd.1 ≠ p := fun he => h (he ▸ h1)
      simp [workerRemove, List.filter_cons, h1, lookupEntry, h2] at ih ⊢
      exact ih
    · by_cases h2 : hd.1 = p
      · simp [workerRemove, List.filter_cons, h1, lookupEntry, h2, h]
      · simp [workerRemove, List.filter_cons, h1, lookupEntry, h2] at ih ⊢
        exact ih

theorem lookupEntry_workerRemove_of_mem (m : ChangesMap) (snap : List String)
    (p : String) (h : p ∈ snap) :
    lookupEntry (workerRemove m snap) p = none := by
  induction m with
  | nil => rfl
  | cons hd tl ih =>
    by_cases h1 : hd.1 ∈ snap
    · simpa [workerRemove, List.filter_cons, h1] using ih
    · have h2 : hd.1 ≠ p := fun he => h1 (he ▸ h)
      simpa [workerRemove, List.filter_cons, h1, lookupEntry, h2] using ih

theorem workerRemove_snapshot_self (m : ChangesMap) :
    workerRemove m (workerSnapshot m) = [] := by
  have h : ∀ pe ∈ m, ¬ (decide (pe.1 ∉ workerSnapshot m) = true) := by
    intro pe hpe
    simp [workerSnapshot]
    exact ⟨pe.2, by simpa using hpe⟩
  simp only [workerRemove]
  exact List.filter_eq_nil_iff.2 h

theorem lookupEntry_rotateUpdatePath_self (m : ChangesMap) (p : String) (cw : Nat) :
    lookupEntry (rotateUpdatePath m p cw) p
      = some (match lookupEntry m p with
              | some e => { e with rotation := (e.rotation + cw) % 4 }
              | none => ⟨cw, 0, 0⟩) := by
  unfold rotateUpdatePath
  cases h : lookupEntry m p with
  | none => simpa using lookupEntry_append_single_self m p _ h
  | some e => simpa using lookupEntry_setEntry_self m p _

theorem lookupEntry_rotateUpdatePath_ne (m : ChangesMap) (p q : String) (cw : Nat)
    (h : p ≠ q) : lookupEntry (rotateUpdatePath m p cw) q = lookupEntry m q := by
  unfold rotateUpdatePath
  cases h1 : lookupEntry m p with
  | none => exact lookupEntry_append_single_ne m p q _ h
  | some e => exact lookupEntry_setEntry_ne m p q _ h

theorem lookupEntry_flipUpdatePath_self (m : ChangesMap) (p : String) (h : Int) :
    lookupEntry (flipUpdatePath m p h) p
      = some (let e := (lookupEntry m p).getD ⟨0, 0, 0⟩
              if h ≠ 0 then { e with flipH := (e.flipH + 1) % 2 }
              else { e with flipV := (e.flipV + 1) % 2 }) := by
  unfold flipUpdatePath
  cases h1 : lookupEntry m p with
  | none =>
    have h2 : lookupEntry (m ++ [(p, (⟨0, 0, 0⟩ : Entry))]) p = some ⟨0, 0, 0⟩ :=
      lookupEntry_append_single_self m p _ h1
    by_cases h3 : h ≠ 0 <;> simp [h1, h2, h3, lookupEntry_setEntry_self]
  | some e =>
    by_cases h3 : h ≠ 0 <;> simp [h1, h3, lookupEntry_setEntry_self]

theorem lookupEntry_flipUpdatePath_ne (m : ChangesMap) (p q : String) (h : Int)
    (hpq : p ≠ q) : lookupEntry (flipUpdatePath m p h) q = lookupEntry m q := by
  unfold flipUpdatePath
  cases h1 : lookupEntry m p with
  | none =>
    by_cases h3 : h ≠ 0 <;>
      simp [h1, h3, lookupEntry_setEntry_ne _ p q _ hpq,
        lookupEntry_append_single_ne m p q _ hpq]
  | some e =>
    by_cases h3 : h ≠ 0 <;> simp [h1, h3, lookupEntry_setEntry_ne _ p q _ hpq]

theorem rotateUpdate_single (m : ChangesMap) (p : String) (c : Int) :
    rotateUpdate m [p] c = rotateUpdatePath m p ((c % 4).toNat) := rfl

theorem flipUpdate_single (m : ChangesMap) (p : String) (h : Int) :
    flipUpdate m [p] h = flipUpdatePath m p h := rfl

theorem rotate_mod_arith (r : Nat) (a b : Int) :
    ((r + (a % 4).toNat) % 4 + (b % 4).toNat) % 4 = (r + ((a + b) % 4).toNat) % 4 := by
  omega

theorem rotate_mod_arith_fresh (a b : Int) :
    (((a % 4).toNat + (b % 4).toNat) % 4) = ((a + b) % 4).toNat := by
  omega

/-! ### Well-formedness preservation -/

theorem mem_setEntry (m : ChangesMap) (p : String) (e : Entry) (pe : String × Entry)
    (h : pe ∈ setEntry m p e) : pe = (p, e) ∨ pe ∈ m := by
  induction m with
  | nil => simpa [setEntry] using h
  | cons hd tl ih =>
    by_cases h1 : hd.1 = p
    · simp [setEntry, h1] at h
      rcases h with h | h
      · exact Or.inl h
      · exact Or.inr (List.mem_cons_of_mem _ h)
    · simp [setEntry, h1] at h
      rcases h with h | h
      · exact Or.inr (h ▸ List.mem_cons_self _ _)
      · rcases ih h with h2 | h2
        · exact Or.inl h2
        · exact Or.inr (List.mem_cons_of_mem _ h2)

theorem lookupEntry_wf (m : ChangesMap) (p : String) (e : Entry)
    (hm : mapWF m) (h : lookupEntry m p = some e) : entryWF e := by
  induction m with
  | nil => simp [lookupEntry] at h
  | cons hd tl ih =>
    by_cases h2 : hd.1 = p
    · simp [lookupEntry, h2] at h
      have := hm hd (List.mem_cons_self _ _)
      rwa [h] at this
    · simp [lookupEntry, h2] at h
      exact ih (fun pe hpe => hm pe (List.mem_cons_of_mem _ hpe)) h

theorem mapWF_setEntry (m : ChangesMap) (p : String) (e : Entry)
    (hm : mapWF m) (he : entryWF e) : mapWF (setEntry m p e) := by
  intro pe hpe
  rcases mem_setEntry _ _ _ _ hpe with h1 | h1
  · rw [h1]; exact he
  · exact hm pe h1

theorem mapWF_append_single (m : ChangesMap) (p : String) (e : Entry)
    (hm : mapWF m) (he : entryWF e) : mapWF (m ++ [(p, e)]) := by
  intro pe hpe
  rcases List.mem_append.1 hpe with h1 | h1
  · exact hm pe h1
  · simp at h1
    rw [h1]; exact he

theorem entryWF_mk {r fh fv : Nat} (h1 : r < 4) (h2 : fh < 2) (h3 : fv < 2) :
    entryWF ⟨r, fh, fv⟩ := ⟨h1, h2, h3⟩

theorem mapWF_rotateUpdatePath (m : ChangesMap) (p : String) (cw : Nat)
    (hcw : cw < 4) (hm : mapWF m) : mapWF (rotateUpdatePath m p cw) := by
  unfold rotateUpdatePath
  cases h : lookupEntry m p with
  | none => exact mapWF_append_single m p _ hm (entryWF_mk hcw (by omega) (by omega))
  | some e =>
    have he : entryWF e := lookupEntry_wf m p e hm h
    exact mapWF_setEntry m p _ hm (entryWF_mk (Nat.mod_lt _ (by omega)) he.2.1 he.2.2)

theorem mapWF_flipUpdatePath (m : ChangesMap) (p : String) (hInt : Int)
    (hm : mapWF m) : mapWF (flipUpdatePath m p hInt) := by
  have hm1 : mapWF (if (lookupEntry m p).isSome then m
      else m ++ [(p, (⟨0, 0, 0⟩ : Entry))]) := by
    split_ifs with h1
    · exact hm
    · exact mapWF_append_single m p _ hm (entryWF_mk (by omega) (by omega) (by omega))
  have he : entryWF ((lookupEntry (if (lookupEntry m p).isSome then m
      else m ++ [(p, (⟨0, 0, 0⟩ : Entry))]) p).getD ⟨0, 0, 0⟩) := by
    cases h2 : lookupEntry (if (lookupEntry m p).isSome then m
        else m ++ [(p, (⟨0, 0, 0⟩ : Entry))]) p with
    | none => exact entryWF_mk (by omega) (by omega) (by omega)
    | some e => exact lookupEntry_wf _ _ _ hm1 h2
  unfold flipUpdatePath
  by_cases h3 : hInt ≠ 0
  · rw [if_pos h3]
    exact mapWF_setEntry _ p _ hm1 (entryWF_mk he.1 (Nat.mod_lt _ (by omega)) he.2.2)
  · rw [if_neg h3]
    exact mapWF_setEntry _ p _ hm1 (entryWF_mk he.1 he.2.1 (Nat.mod_lt _ (by omega)))

theorem mapWF_rotateUpdate (m : ChangesMap) (images : List String) (c : Int)
    (hm : mapWF m) : mapWF (rotateUpdate m images c) := by
  have hcw : (c % 4).toNat < 4 := by omega
  unfold rotateUpdate
  induction images generalizing m with
  | nil => exact hm
  | cons hd tl ih => exact ih _ (mapWF_rotateUpdatePath m hd _ hcw hm)

theorem mapWF_flipUpdate (m : ChangesMap) (images : List String) (hInt : Int)
    (hm : mapWF m) : mapWF (flipUpdate m images hInt) := by
  unfold flipUpdate
  induction images generalizing m with
  | nil => exact hm
  | cons hd tl ih => exact ih _ (mapWF_flipUpdatePath m hd _ hm)

/-! ### Lemmas about the Commit Worker trace -/

theorem ite_singleton_sublist {c : Prop} [Decidable c] (a : Event) :
    (if c then [a] else []).Sublist [a] := by
  split_ifs
  · exact List.Sublist.refl _
  · exact List.nil_sublist _

theorem entryCalls_sublist (f : String) (e : Entry) :
    (entryCalls f e).Sublist
      [Event.codecRotate f e.rotation, Event.codecFlip f true, Event.codecFlip f false] :=
  List.Sublist.append
    (List.Sublist.append (ite_singleton_sublist _) (ite_singleton_sublist _))
    (ite_singleton_sublist _)

theorem allCalls_append (l1 l2 : ChangesMap) :
    allCalls (l1 ++ l2) = allCalls l1 ++ allCalls l2 := by
  induction l1 with
  | nil => rfl
  | cons hd tl ih =>
    obtain ⟨f, e⟩ := hd
    simp [allCalls, ih]

theorem mem_allCalls (m : ChangesMap) (x : Event) :
    x ∈ allCalls m ↔ ∃ f e, (f, e) ∈ m ∧ x ∈ entryCalls f e := by
  induction m with
  | nil => simp [allCalls]
  | cons hd tl ih =>
    obtain ⟨f, e⟩ := hd
    simp only [allCalls, List.mem_append, List.mem_cons, ih, Prod.mk.injEq]
    constructor
    · rintro (hx | ⟨f1, e1, h1, hx⟩)
      · exact ⟨f, e, Or.inl ⟨rfl, rfl⟩, hx⟩
      · exact ⟨f1, e1, Or.inr h1, hx⟩
    · rintro ⟨f1, e1, ⟨rfl, rfl⟩ | h1, hx⟩
      · exact Or.inl hx
      · exact Or.inr ⟨f1, e1, h1, hx⟩

theorem codecRotate_mem_entryCalls (f : String) (e : Entry) (p : String) (s : Nat) :
    Event.codecRotate p s ∈ entryCalls f e ↔ p = f ∧ s = e.rotation ∧ e.rotation ≠ 0 := by
  unfold entryCalls
  by_cases h1 : e.rotation ≠ 0 <;> by_cases h2 : e.flipH ≠ 0 <;> by_cases h3 : e.flipV ≠ 0 <;>
    simp [h1, h2, h3]

theorem codecFlipH_mem_entryCalls (f : String) (e : Entry) (p : String) :
    Event.codecFlip p true ∈ entryCalls f e ↔ p = f ∧ e.flipH ≠ 0 := by
  unfold entryCalls
  by_cases h1 : e.rotation ≠ 0 <;> by_cases h2 : e.flipH ≠ 0 <;> by_cases h3 : e.flipV ≠ 0 <;>
    simp [h1, h2, h3]

theorem codecFlipV_mem_entryCalls (f : String) (e : Entry) (p : String) :
    Event.codecFlip p false ∈ entryCalls f e ↔ p = f ∧ e.flipV ≠ 0 := by
  unfold entryCalls
  by_cases h1 : e.rotation ≠ 0 <;> by_cases h2 : e.flipH ≠ 0 <;> by_cases h3 : e.flipV ≠ 0 <;>
    simp [h1, h2, h3]

theorem entryCalls_infix_allCalls (m : ChangesMap) (p : String) (e : Entry)
    (h : (p, e) ∈ m) : (entryCalls p e).IsInfix (allCalls m) := by
  obtain ⟨s, t, rfl⟩ := List.append_of_mem h
  exact ⟨allCalls s, allCalls t, by simp [allCalls_append, allCalls]⟩

/-! ### Lemmas about the delete loop -/

/-- Concatenation of a list of strings, left to right. -/
def concatAll (l : List String) : String :=
  l.foldr (fun a b => a ++ b) ""

theorem string_empty_append (s : String) : "" ++ s = s := rfl

theorem deleteRun_fst (st : TransformState) (l : List String) :
    (deleteRun st l).1 = concatAll (l.map (deleteErrString st)) := by
  induction l with
  | nil => rfl
  | cons hd tl ih =>
    by_cases h1 : fsExists st hd
    · by_cases h2 : fsIsDir st hd <;>
        simp [deleteRun, deleteErrString, concatAll, h1, h2, ih, string_empty_append]
    · simp [deleteRun, deleteErrString, concatAll, h1, ih]

theorem deleteRun_snd (st : TransformState) (l : List String) :
    (deleteRun st l).2
      = (l.filter (fun im => fsExists st im && ! fsIsDir st im)).map Event.trashDelete := by
  induction l with
  | nil => rfl
  | cons hd tl ih =>
    by_cases h1 : fsExists st hd
    · by_cases h2 : fsIsDir st hd <;> simp [deleteRun, List.filter_cons, h1, h2, ih]
    · simp [deleteRun, List.filter_cons, h1, ih]

/-! ### Lemmas about iterated flips -/

theorem flipUpdate_iterate_fresh_h (m : ChangesMap) (p : String) (h : Int)
    (hh : h ≠ 0) (habs : lookupEntry m p = none) (n : Nat) :
    lookupEntry ((fun mm => flipUpdate mm [p] h)^[n + 1] m) p
      = some ⟨0, (n + 1) % 2, 0⟩ := by
  induction n with
  | zero =>
    simp only [Nat.zero_add, Function.iterate_one]
    rw [flipUpdate_single, lookupEntry_flipUpdatePath_self, habs]
    simp [hh]
  | succ k ih =>
    rw [Function.iterate_succ_apply']
    rw [flipUpdate_single, lookupEntry_flipUpdatePath_self, ih]
    simp only [Option.getD_some]
    rw [if_pos hh]
    have : ((k + 1) % 2 + 1) % 2 = (k + 1 + 1) % 2 := by omega
    simp [this]

theorem flipUpdate_iterate_fresh_v (m : ChangesMap) (p : String) (h : Int)
    (hh : h = 0) (habs : lookupEntry m p = none) (n : Nat) :
    lookupEntry ((fun mm => flipUpdate mm [p] h)^[n + 1] m) p
      = some ⟨0, 0, (n + 1) % 2⟩ := by
  induction n with
  | zero =>
    simp only [Nat.zero_add, Function.iterate_one]
    rw [flipUpdate_single, lookupEntry_flipUpdatePath_self, habs]
    simp [hh]
  | succ k ih =>
    rw [Function.iterate_succ_apply']
    rw [flipUpdate_single, lookupEntry_flipUpdatePath_self, ih]
    simp only [Option.getD_some]
    rw [if_neg (by simp [hh])]
    have : ((k + 1) % 2 + 1) % 2 = (k + 1 + 1) % 2 := by omega
    simp [this]

/-! ### Claim theorems -/

/-- C7: rotating a path by `a` and then by `b` leaves the same staged entry
for that path as a single rotation by `a + b` (and hence by `(a+b) mod 4`,
which `rotateUpdate` reduces to), and both merge operations preserve the
invariant that every staged rotation lies in `[0,3]` and every flip flag in
`[0,1]`. -/
theorem rotate_rotate_eq_rotate_add :
    (∀ (m : ChangesMap) (p : String) (a b : Int),
        lookupEntry (rotateUpdate (rotateUpdate m [p] a) [p] b) p
          = lookupEntry (rotateUpdate m [p] (a + b)) p)
  ∧ (∀ (m : ChangesMap) (images : List String) (c : Int),
        mapWF m → mapWF (rotateUpdate m images c))
  ∧ (∀ (m : ChangesMap) (images : List String) (h : Int),
        mapWF m → mapWF (flipUpdate m images h)) := by
  refine ⟨?_, mapWF_rotateUpdate, mapWF_flipUpdate⟩
  intro m p a b
  rw [rotateUpdate_single, rotateUpdate_single, rotateUpdate_single,
      lookupEntry_rotateUpdatePath_self, lookupEntry_rotateUpdatePath_self,
      lookupEntry_rotateUpdatePath_self]
  cases h : lookupEntry m p with
  | none =>
    have harith := rotate_mod_arith_fresh a b
    simp [h, harith]
  | some e =>
    have harith := rotate_mod_arith e.rotation a b
    simp [h, harith]

/-- C7 witness: a concrete instance of the rotate-merge addition law and of
invariant preservation. -/
theorem rotate_rotate_eq_rotate_add_witness :
    lookupEntry (rotateUpdate (rotateUpdate [] ["/a.jpg"] 7) ["/a.jpg"] (-2)) "/a.jpg"
      = lookupEntry (rotateUpdate [] ["/a.jpg"] (7 + -2)) "/a.jpg"
  ∧ mapWF (rotateUpdate [("/b.jpg", ⟨3, 1, 0⟩)] ["/a.jpg", "/b.jpg"] 7) :=
  ⟨rotate_rotate_eq_rotate_add.1 [] "/a.jpg" 7 (-2),
   rotate_rotate_eq_rotate_add.2.1 [("/b.jpg", ⟨3, 1, 0⟩)] ["/a.jpg", "/b.jpg"] 7
     (by decide)⟩

/-- C8: flipping a freshly staged path on one axis `n+1` times leaves that
axis flag at `(n+1) % 2` (so an odd number of flips yields the set flag, an
even number the cleared flag), the other axis and the rotation stay `0`; one
flip of an already staged path toggles only the requested axis flag; and a
flip never touches the entry of any other path. -/
theorem flip_parity_and_toggle :
    (∀ (m : ChangesMap) (p : String) (h : Int) (n : Nat),
        lookupEntry m p = none → h ≠ 0 →
        lookupEntry ((fun mm => flipUpdate mm [p] h)^[n + 1] m) p
          = some ⟨0, (n + 1) % 2, 0⟩)
  ∧ (∀ (m : ChangesMap) (p : String) (n : Nat),
        lookupEntry m p = none →
        lookupEntry ((fun mm => flipUpdate mm [p] 0)^[n + 1] m) p
          = some ⟨0, 0, (n + 1) % 2⟩)
  ∧ (∀ (m : ChangesMap) (p : String) (h : Int) (e : Entry),
        lookupEntry m p = some e →
        lookupEntry (flipUpdate m [p] h) p
          = some (if h ≠ 0 then { e with flipH := (e.flipH + 1) % 2 }
                  else { e with flipV := (e.flipV + 1) % 2 }))
  ∧ (∀ (m : ChangesMap) (p q : String) (h : Int), p ≠ q →
        lookupEntry (flipUpdate m [p] h) q = lookupEntry m q) := by
  refine ⟨?_, ?_, ?_, ?_⟩
  · intro m p h n habs hh
    exact flipUpdate_iterate_fresh_h m p h hh habs n
  · intro m p n habs
    exact flipUpdate_iterate_fresh_v m p 0 rfl habs n
  · intro m p h e he
    rw [flipUpdate_single, lookupEntry_flipUpdatePath_self, he]
    rfl
  · intro m p q h hpq
    rw [flipUpdate_single]
    exact lookupEntry_flipUpdatePath_ne m p q h hpq

/-- C8 witness: two horizontal flips of a fresh path clear the flag, three
set it; a flip on one axis leaves the other axis of an existing entry
alone. -/
theorem flip_parity_and_toggle_witness :
    lookupEntry ((fun mm => flipUpdate mm ["/a.jpg"] 1)^[1 + 1] []) "/a.jpg"
      = some ⟨0, (1 + 1) % 2, 0⟩
  ∧ lookupEntry ((fun mm => flipUpdate mm ["/a.jpg"] 1)^[2 + 1] []) "/a.jpg"
      = some ⟨0, (2 + 1) % 2, 0⟩
  ∧ lookupEntry (flipUpdate [("/a.jpg", ⟨3, 0, 1⟩)] ["/a.jpg"] 2) "/a.jpg"
      = some (if (2 : Int) ≠ 0 then (⟨3, 1, 1⟩ : Entry) else ⟨3, 0, 0⟩) :=
  ⟨flip_parity_and_toggle.1 [] "/a.jpg" 1 1 rfl (by decide),
   flip_parity_and_toggle.1 [] "/a.jpg" 1 2 rfl (by decide),
   flip_parity_and_toggle.2.2.1 [("/a.jpg", ⟨3, 0, 1⟩)] "/a.jpg" 2 ⟨3, 0, 1⟩ (by decide)⟩

/-- C4: `apply()` is a three-way dispatch: with the running flag set it is a
no-op (state untouched, no codec call, no spawn, nothing queued); with the
flag clear and autosave disabled it clears the whole Staged Transform Map
without any codec call or spawn; otherwise it spawns the Commit Worker and
leaves the map to the worker. -/
theorem apply_three_way_dispatch (st : TransformState) :
    (st.threads_running = true → apply st = (st, []))
  ∧ (st.threads_running = false → st.autosave = false →
      apply st = ({ st with changes := [] }, []))
  ∧ (st.threads_running = false → st.autosave = true →
      apply st = (st, [Event.workerSpawned])) := by
  refine ⟨fun h1 => ?_, fun h1 h2 => ?_, fun h1 h2 => ?_⟩
  · simp [apply, h1]
  · simp [apply, h1, h2]
  · simp [apply, h1, h2]

/-- C4 witness: the three dispatch branches at concrete states. -/
theorem apply_three_way_dispatch_witness :
    apply { sampleState with threads_running := true }
      = ({ sampleState with threads_running := true }, [])
  ∧ apply { sampleState with autosave := false, changes := [("/a.jpg", ⟨1, 0, 0⟩)] }
      = ({ sampleState with autosave := false, changes := [] }, [])
  ∧ apply sampleState = (sampleState, [Event.workerSpawned]) :=
  ⟨(apply_three_way_dispatch _).1 rfl,
   (apply_three_way_dispatch _).2.1 rfl rfl,
   (apply_three_way_dispatch _).2.2 rfl rfl⟩

/-- A state with one staged rotation, used to exhibit the shared running
flag. -/
def autorotateCexState : TransformState :=
  { sampleState with changes := [("/a.jpg", ⟨1, 0, 0⟩)] }

/-- C3 counterexample: the claim says an in-flight autorotate pass leaves
`apply()` unaffected.  At a state with one staged rotation, `apply` spawns
the Commit Worker before `rotate_auto`, but after `rotate_auto` has started
(and before its completion callback) `apply` drops the request, because
`rotate_auto` sets the very flag `apply` checks. -/
theorem autorotate_shares_flag_cex :
    (apply autorotateCexState).2 = [Event.workerSpawned]
  ∧ apply (rotate_auto autorotateCexState).1 = ((rotate_auto autorotateCexState).1, [])
  ∧ (rotate_auto autorotateCexState).1.threads_running = true := by
  refine ⟨rfl, ?_, rfl⟩
  simp [apply, rotate_auto, autorotateCexState]

/-- C3 amended: the Commit Worker and the Autorotate pass share the single
boolean flag `threads_running`: `rotate_auto` sets exactly that flag and its
completion callback clears it, so while an autorotate pass is in flight
`apply()` drops every request (and conversely a running Commit Worker is
indistinguishable from a running autorotate pass to `apply`). -/
theorem autorotate_uses_shared_flag (st : TransformState) (n : Nat) :
    (rotate_auto st).1 = { st with threads_running := true }
  ∧ apply (rotate_auto st).1 = ({ st with threads_running := true }, [])
  ∧ (on_autorotate_completed st n).1 = { st with threads_running := false }
  ∧ (rotate_auto st).2 = [Event.autorotateRun st.allPaths] := by
  refine ⟨rfl, ?_, rfl, rfl⟩
  simp [apply, rotate_auto]

/-- C9: selection resolution returns the marked set verbatim (regardless of
the current path) with an "N marked image(s)" notice choosing singular or
plural by count when the marked set is non-empty, and otherwise exactly the
one-element list holding the absolute path of the displayed file with no
notice. -/
theorem get_images_resolution (st : TransformState) (info : String) :
    (st.marked ≠ [] →
      get_images st info
        = (st.marked,
           [Event.statusbarMessage
             (info ++ " " ++ toString st.marked.length ++ " marked image"
               ++ (if st.marked.length = 1 then "" else "s")) "info"]))
  ∧ (st.marked = [] → get_images st info = ([st.posPath], [])) := by
  constructor
  · intro h
    have h1 : st.marked.isEmpty = false := by
      cases hm : st.marked with
      | nil => exact absurd hm h
      | cons a l => rfl
    by_cases h2 : st.marked.length = 1
    · simp [get_images, h1, h2, String.append_empty]
    · simp only [get_images, h1, Bool.false_eq_true, if_false, h2]
      have hs : (" marked image" ++ "s" : String) = " marked images" := by decide
      conv_rhs => rw [String.append_assoc, hs]
  · intro h
    simp [get_images, h]

/-- C9 witness: resolution with two marked images and with none. -/
theorem get_images_resolution_witness :
    get_images { sampleState with marked := ["/m1.jpg", "/m2.jpg"] } "Deleted"
      = (["/m1.jpg", "/m2.jpg"],
         [Event.statusbarMessage
           ("Deleted" ++ " " ++ toString (["/m1.jpg", "/m2.jpg"] : List String).length
             ++ " marked image"
             ++ (if (["/m1.jpg", "/m2.jpg"] : List String).length = 1 then "" else "s"))
           "info"])
  ∧ get_images sampleState "Deleted" = (["/cur.jpg"], []) :=
  ⟨(get_images_resolution { sampleState with marked := ["/m1.jpg", "/m2.jpg"] }
      "Deleted").1 (by decide),
   (get_images_resolution sampleState "Deleted").2 rfl⟩

/-- C1 counterexample: with `/a.jpg` staged at rotation 1 and snapshotted by
the Commit Worker, a rotate merge arriving during the in-flight window is
absorbed into the snapshotted entry (rotation becomes 2), and the worker then
deletes that key: the merge is NOT visible afterwards, contradicting the
claim that such a merge remains pending for the next commit cycle. -/
theorem snapshot_window_merge_lost_cex :
    lookupEntry (rotateUpdate [("/a.jpg", ⟨1, 0, 0⟩)] ["/a.jpg"] 1) "/a.jpg"
      = some ⟨2, 0, 0⟩
  ∧ lookupEntry
      (workerRemove (rotateUpdate [("/a.jpg", ⟨1, 0, 0⟩)] ["/a.jpg"] 1)
        (workerSnapshot [("/a.jpg", ⟨1, 0, 0⟩)]))
      "/a.jpg" = none := by
  decide

/-- C1 amended: a rotate or flip merge arriving after the worker snapshot
survives the worker's snapshot-key removal precisely when its path is not
among the snapshotted keys (for instance a path first staged during the
window); every snapshotted key is removed, so a merge into a snapshotted
entry during the in-flight window is lost with it. -/
theorem snapshot_window_merge_kept_iff_fresh (m : ChangesMap) (snap : List String)
    (p : String) (c : Int) :
    (p ∉ snap →
        lookupEntry (workerRemove (rotateUpdate m [p] c) snap) p
          = lookupEntry (rotateUpdate m [p] c) p
      ∧ (lookupEntry (rotateUpdate m [p] c) p).isSome = true
      ∧ lookupEntry (workerRemove (flipUpdate m [p] c) snap) p
          = lookupEntry (flipUpdate m [p] c) p
      ∧ (lookupEntry (flipUpdate m [p] c) p).isSome = true)
  ∧ (p ∈ snap →
        lookupEntry (workerRemove (rotateUpdate m [p] c) snap) p = none
      ∧ lookupEntry (workerRemove (flipUpdate m [p] c) snap) p = none) := by
  constructor
  · intro hp
    refine ⟨lookupEntry_workerRemove_of_notMem _ _ _ hp, ?_,
            lookupEntry_workerRemove_of_notMem _ _ _ hp, ?_⟩
    · rw [rotateUpdate_single, lookupEntry_rotateUpdatePath_self]
      rfl
    · rw [flipUpdate_single, lookupEntry_flipUpdatePath_self]
      rfl
  · intro hp
    exact ⟨lookupEntry_workerRemove_of_mem _ _ _ hp,
           lookupEntry_workerRemove_of_mem _ _ _ hp⟩

/-- C1 witness: a merge on a path outside the snapshot survives the removal;
a merge on a snapshotted path does not. -/
theorem snapshot_window_merge_kept_iff_fresh_witness :
    lookupEntry
        (workerRemove (rotateUpdate [("/a.jpg", ⟨1, 0, 0⟩)] ["/b.jpg"] 1) ["/a.jpg"])
        "/b.jpg"
      = lookupEntry (rotateUpdate [("/a.jpg", ⟨1, 0, 0⟩)] ["/b.jpg"] 1) "/b.jpg"
  ∧ lookupEntry
      (workerRemove (rotateUpdate [("/a.jpg", ⟨1, 0, 0⟩)] ["/a.jpg"] 1) ["/a.jpg"])
      "/a.jpg" = none :=
  ⟨((snapshot_window_merge_kept_iff_fresh [("/a.jpg", ⟨1, 0, 0⟩)] ["/a.jpg"]
      "/b.jpg" 1).1 (by decide)).1,
   ((snapshot_window_merge_kept_iff_fresh [("/a.jpg", ⟨1, 0, 0⟩)] ["/a.jpg"]
      "/a.jpg" 1).2 (by decide)).1⟩

/-- A state with a staged rotation, the running flag set and autosave
disabled, exhibiting that `write` honours neither. -/
def writeCexState : TransformState :=
  { sampleState with
    changes := [("/a.jpg", ⟨1, 0, 0⟩)]
    threads_running := true
    autosave := false }

/-- C2 counterexample: at a state whose running flag is set and whose
autosave setting is disabled, the claim demands that `write(quit=false)`
behave like `apply()` — drop the commit (single-flight guard) or discard the
map without writing (autosave check).  Instead `write` drives the codec and
drains the map; the spec-worded variant `write_spec`, which does call
`apply`, performs no codec call and leaves the map untouched. -/
theorem write_bypasses_guard_cex :
    writeCexState.threads_running = true
  ∧ writeCexState.autosave = false
  ∧ Event.codecRotate "/a.jpg" 1 ∈ (write writeCexState false).2
  ∧ (write writeCexState false).1.changes = []
  ∧ (write_spec writeCexState false).1.changes = [("/a.jpg", ⟨1, 0, 0⟩)]
  ∧ (write_spec writeCexState false).2
      = [Event.statusbarMessage "Saving..." "info",
         Event.statusbarMessage "Changes written to disk" "info"] := by
  decide

/-- C2 amended: with manipulate mode inactive, `write(quit=false)` performs
the commit by running the Commit Worker body directly and synchronously,
whatever the running flag and the autosave setting say (so it is subject to
neither the single-flight guard nor the autosave check of `apply()`); with
manipulate mode active it delegates to the manipulate subsystem and clears
the Staged Transform Map locally. -/
theorem write_runs_worker_directly (st : TransformState) :
    (st.manipulateVisible = false →
      (write st false).1 = (thread_for_apply st).1
      ∧ (write st false).2
          = Event.statusbarMessage "Saving..." "info" :: (thread_for_apply st).2
            ++ [Event.statusbarMessage "Changes written to disk" "info"])
  ∧ (st.manipulateVisible = true →
      (write st false).1.changes = []
      ∧ Event.manipulateFinish ∈ (write st false).2) := by
  constructor
  · intro h
    constructor <;> simp [write, h]
  · intro h
    constructor <;> simp [write, h]

/-- A state in manipulate mode with a staged rotation. -/
def manipulateWitnessState : TransformState :=
  { sampleState with
    manipulateVisible := true
    changes := [("/a.jpg", ⟨1, 0, 0⟩)] }

/-- C2 witness: both branches of the amended statement at concrete states. -/
theorem write_runs_worker_directly_witness :
    ((write writeCexState false).1 = (thread_for_apply writeCexState).1
      ∧ (write writeCexState false).2
          = Event.statusbarMessage "Saving..." "info" :: (thread_for_apply writeCexState).2
            ++ [Event.statusbarMessage "Changes written to disk" "info"])
  ∧ ((write manipulateWitnessState false).1.changes = []
      ∧ Event.manipulateFinish ∈ (write manipulateWitnessState false).2) :=
  ⟨(write_runs_worker_directly writeCexState).1 rfl,
   (write_runs_worker_directly manipulateWitnessState).2 rfl⟩

/-- C5: the Commit Worker invokes the codec per staged entry exactly for the
non-zero components, in the fixed order rotation, then horizontal flip, then
vertical flip; it removes exactly the snapshotted keys (emptying the map,
every key having been snapshotted) and ends by emitting `applied-to-file`
carrying the snapshotted path list. -/
theorem worker_commit_behaviour (st : TransformState) :
    (∀ p s, Event.codecRotate p s ∈ (thread_for_apply st).2 ↔
        ∃ e, (p, e) ∈ st.changes ∧ s = e.rotation ∧ e.rotation ≠ 0)
  ∧ (∀ p, Event.codecFlip p true ∈ (thread_for_apply st).2 ↔
        ∃ e, (p, e) ∈ st.changes ∧ e.flipH ≠ 0)
  ∧ (∀ p, Event.codecFlip p false ∈ (thread_for_apply st).2 ↔
        ∃ e, (p, e) ∈ st.changes ∧ e.flipV ≠ 0)
  ∧ (∀ p e, (p, e) ∈ st.changes →
        (entryCalls p e).Sublist
          [Event.codecRotate p e.rotation, Event.codecFlip p true,
           Event.codecFlip p false]
        ∧ (entryCalls p e).IsInfix (thread_for_apply st).2)
  ∧ (thread_for_apply st).1.changes
      = workerRemove st.changes (workerSnapshot st.changes)
  ∧ (thread_for_apply st).1.changes = []
  ∧ (thread_for_apply st).2.getLast?
      = some (Event.appliedToFile (workerSnapshot st.changes)) := by
  refine ⟨?_, ?_, ?_, ?_, rfl, workerRemove_snapshot_self st.changes,
    List.getLast?_concat _⟩
  · intro p s
    constructor
    · intro hx
      rcases List.mem_append.1 hx with hx | hx
      · obtain ⟨f, e, hfe, hco⟩ := (mem_allCalls _ _).1 hx
        obtain ⟨rfl, hs, hrot⟩ := (codecRotate_mem_entryCalls f e p s).1 hco
        exact ⟨e, hfe, hs, hrot⟩
      · simp at hx
    · rintro ⟨e, hfe, hs, hrot⟩
      exact List.mem_append.2 (Or.inl ((mem_allCalls _ _).2
        ⟨p, e, hfe, (codecRotate_mem_entryCalls p e p s).2 ⟨rfl, hs, hrot⟩⟩))
  · intro p
    constructor
    · intro hx
      rcases List.mem_append.1 hx with hx | hx
      · obtain ⟨f, e, hfe, hco⟩ := (mem_allCalls _ _).1 hx
        obtain ⟨rfl, hfl⟩ := (codecFlipH_mem_entryCalls f e p).1 hco
        exact ⟨e, hfe, hfl⟩
      · simp at hx
    · rintro ⟨e, hfe, hfl⟩
      exact List.mem_append.2 (Or.inl ((mem_allCalls _ _).2
        ⟨p, e, hfe, (codecFlipH_mem_entryCalls p e p).2 ⟨rfl, hfl⟩⟩))
  · intro p
    constructor
    · intro hx
      rcases List.mem_append.1 hx with hx | hx
      · obtain ⟨f, e, hfe, hco⟩ := (mem_allCalls _ _).1 hx
        obtain ⟨rfl, hfl⟩ := (codecFlipV_mem_entryCalls f e p).1 hco
        exact ⟨e, hfe, hfl⟩
      · simp at hx
    · rintro ⟨e, hfe, hfl⟩
      exact List.mem_append.2 (Or.inl ((mem_allCalls _ _).2
        ⟨p, e, hfe, (codecFlipV_mem_entryCalls p e p).2 ⟨rfl, hfl⟩⟩))
  · intro p e hpe
    refine ⟨entryCalls_sublist p e, ?_⟩
    exact (entryCalls_infix_allCalls st.changes p e hpe).trans
      ⟨[], [Event.appliedToFile (workerSnapshot st.changes)], by simp [thread_for_apply]⟩

/-- A state with one staged entry (rotation 2, horizontal flip). -/
def workerWitnessState : TransformState :=
  { sampleState with changes := [("/a.jpg", ⟨2, 1, 0⟩)] }

/-- C5 witness: the rotation call of the staged entry is in the trace, and
the whole per-entry call block appears contiguously in it. -/
theorem worker_commit_behaviour_witness :
    Event.codecRotate "/a.jpg" 2 ∈ (thread_for_apply workerWitnessState).2
  ∧ (entryCalls "/a.jpg" ⟨2, 1, 0⟩).IsInfix (thread_for_apply workerWitnessState).2 :=
  ⟨((worker_commit_behaviour workerWitnessState).1 "/a.jpg" 2).2
      ⟨⟨2, 1, 0⟩, by decide, rfl, by decide⟩,
   ((worker_commit_behaviour workerWitnessState).2.2.2.1 "/a.jpg" ⟨2, 1, 0⟩
      (by decide)).2⟩

theorem trashDelete_not_mem_get_images_snd (st : TransformState) (info p : String) :
    Event.trashDelete p ∉ (get_images st info).2 := by
  unfold get_images
  split_ifs <;> simp

theorem error_not_mem_get_images_snd (st : TransformState) (info t : String) :
    Event.statusbarMessage t "error" ∉ (get_images st info).2 := by
  unfold get_images
  split_ifs <;> simp

/-- C6: `delete()` clears the marked set whatever happens, hands exactly the
selected paths that exist and are not directories to the Trash Coordinator,
accumulates one error string per skipped path into one combined message,
reports that combined message as a single error exactly when some path was
skipped, and always ends by emitting `paths-changed`. -/
theorem delete_behaviour (st : TransformState) :
    (delete st).1.marked = []
  ∧ (∀ p, Event.trashDelete p ∈ (delete st).2 ↔
        p ∈ (get_images st "Deleted").1
          ∧ fsExists st p = true ∧ fsIsDir st p = false)
  ∧ (deleteRun st (get_images st "Deleted").1).1
      = concatAll ((get_images st "Deleted").1.map (deleteErrString st))
  ∧ ((deleteRun st (get_images st "Deleted").1).1 ≠ "" →
      Event.statusbarMessage (deleteRun st (get_images st "Deleted").1).1 "error"
        ∈ (delete st).2)
  ∧ ((deleteRun st (get_images st "Deleted").1).1 = "" →
      ∀ t, Event.statusbarMessage t "error" ∉ (delete st).2)
  ∧ (delete st).2.getLast? = some Event.pathsChanged := by
  refine ⟨rfl, ?_, deleteRun_fst st _, ?_, ?_, ?_⟩
  · intro p
    simp only [delete, List.mem_append, List.mem_singleton]
    rw [deleteRun_snd]
    constructor
    · rintro (((hx | hx) | hx) | hx)
      · exact absurd hx (trashDelete_not_mem_get_images_snd st "Deleted" p)
      · obtain ⟨im, him, heq⟩ := List.mem_map.1 hx
        obtain ⟨him2, hcond⟩ := List.mem_filter.1 him
        cases heq
        simp only [Bool.and_eq_true, Bool.not_eq_true'] at hcond
        exact ⟨him2, hcond.1, hcond.2⟩
      · split_ifs at hx <;> simp at hx
      · cases hx
    · rintro ⟨him, hex, hdir⟩
      refine Or.inl (Or.inl (Or.inr ?_))
      refine List.mem_map.2 ⟨p, List.mem_filter.2 ⟨him, ?_⟩, rfl⟩
      simp [hex, hdir]
  · intro h
    simp only [delete, List.mem_append]
    refine Or.inl (Or.inr ?_)
    rw [if_neg h]
    exact List.mem_singleton.2 rfl
  · intro h t
    simp only [delete, List.mem_append, List.mem_singleton]
    rintro (((hx | hx) | hx) | hx)
    · exact error_not_mem_get_images_snd st "Deleted" t hx
    · rw [deleteRun_snd] at hx
      obtain ⟨im, _, heq⟩ := List.mem_map.1 hx
      cases heq
    · rw [if_pos h] at hx
      cases hx
    · cases hx
  · exact List.getLast?_concat _

/-- C10: `flip` pushes its axis argument through the integer parser before
acting: in a transformable state, a non-numeric axis argument aborts with a
single user-facing conversion error, leaving the Staged Transform Map and
the marked set unchanged and emitting no `changed` event. -/
theorem flip_nonnumeric_aborts (st : TransformState) (arg : String)
    (h1 : is_transformable st = none) (h2 : str_to_int arg = none) :
    flip st arg
      = (st, [Event.statusbarMessage ("Could not convert " ++ arg ++ " to int") "error"])
  ∧ (flip st arg).1.changes = st.changes
  ∧ (flip st arg).1.marked = st.marked
  ∧ (∀ h, Event.changedFlip h ∉ (flip st arg).2) := by
  have hflip : flip st arg
      = (st, [Event.statusbarMessage ("Could not convert " ++ arg ++ " to int") "error"]) := by
    simp [flip, h1, get_int, h2]
  refine ⟨hflip, by rw [hflip], by rw [hflip], ?_⟩
  intro h
  rw [hflip]
  simp

/-- C10 witness: the word "horizontal" is not numeric, so `flip` on a
transformable state aborts with the conversion error. -/
theorem flip_nonnumeric_aborts_witness :
    flip sampleState "horizontal"
      = (sampleState,
         [Event.statusbarMessage ("Could not convert " ++ "horizontal" ++ " to int")
            "error"]) :=
  (flip_nonnumeric_aborts sampleState "horizontal" rfl (by decide)).1

/-- A batch of an existing file, a missing file and a directory, as marked
images. -/
def deleteWitnessState : TransformState :=
  { sampleState with
    marked := ["/ok.jpg", "/missing.jpg", "/dir"]
    fs := [("/ok.jpg", false), ("/dir", true), ("/cur.jpg", false)] }

/-- C6 witness: on the batch `[existing, missing, directory]`, `delete`
clears the marked set, reports the combined error message and still trashes
the existing file. -/
theorem delete_behaviour_witness :
    (delete deleteWitnessState).1.marked = []
  ∧ Event.statusbarMessage
      (deleteRun deleteWitnessState (get_images deleteWitnessState "Deleted").1).1
      "error" ∈ (delete deleteWitnessState).2
  ∧ Event.trashDelete "/ok.jpg" ∈ (delete deleteWitnessState).2 :=
  ⟨(delete_behaviour deleteWitnessState).1,
   (delete_behaviour deleteWitnessState).2.2.2.1 (by decide),
   ((delete_behaviour deleteWitnessState).2.1 "/ok.jpg").2
     ⟨by decide, by decide, by decide⟩⟩

end Vimiv
